import Mathlib

/-!
Verification model of the grpc-tools intercepting proxy.

The definitions below are a shallow embedding of the repository's Go
sources: `internal/tlsmux/peek_conn.go`, `internal/tlsmux/mux_listener.go`,
`internal/tlsmux/tls_mux.go` (namespace `Tlsmux`) and
`grpc-proxy/http_transport.go` together with the HAR recording file
(namespace `GrpcProxy`).  Bytes are modelled as `Nat`, Go slices as a
backing array plus a length, Go strings as Lean strings (the inputs used
in the theorems are ASCII, where the two coincide byte for byte).
-/

namespace GoModel

/-- Go `copy(dst, src)`: overwrites the first `min (len dst) (len src)`
elements of `dst` with those of `src`; the rest of `dst` is unchanged. -/
def goCopy {α : Type} (dst src : List α) : List α :=
  let n := min dst.length src.length
  src.take n ++ dst.drop n

/-- Go `copy(dst[i:], src)` when `src` fits: writes `src` into `dst`
starting at index `i`, leaving the rest of `dst` unchanged. -/
def writeAt {α : Type} (dst : List α) (i : Nat) (src : List α) : List α :=
  dst.take i ++ src ++ dst.drop (i + src.length)

/-- A Go slice: the backing array up to the capacity (`arr`, so
`cap = arr.length`) together with the slice length `len`.  Bytes of the
backing array at positions `≥ len` exist but are invisible to `copy`
from the slice. -/
structure GoSlice (α : Type) where
  arr : List α
  len : Nat
deriving DecidableEq

/-- The visible elements of a Go slice. -/
def GoSlice.view {α : Type} (s : GoSlice α) : List α := s.arr.take s.len

end GoModel

namespace Tlsmux

open GoModel

/-- State of a `peekConn` (peek_conn.go): the not-yet-read bytes of the
underlying connection and the `peeked` Go slice (`none` = nil slice). -/
structure PeekConnSt where
  stream : List Nat
  peeked : Option (GoSlice Nat)
deriving DecidableEq

/-- `cap` of the possibly-nil `peeked` slice. -/
def peekCap (p : Option (GoSlice Nat)) : Nat :=
  match p with
  | none => 0
  | some g => g.arr.length

/-- `peekConn.Peek` (peek_conn.go lines 30-48).  `b` is the caller's
buffer contents, `bcap` its capacity (the code uses `size := cap(b)`).
Returns the new connection state, the new contents of `b`, and the
returned count `n`.

Faithful detail: when the buffer is grown, `peek := make([]byte, 0, size)`
has length 0, so `copy(peek, p.peeked)` copies zero bytes; the fresh
backing array is all zeros with slice length 0.  The subsequent
`p.Conn.Read(p.peeked[len(p.peeked):size])` fills the backing array but
never updates the slice length, and the function returns `len(p.peeked)`. -/
def peekGo (st : PeekConnSt) (b : List Nat) (bcap : Nat) : PeekConnSt × List Nat × Nat :=
  let size := bcap
  let pk0 : Option (GoSlice Nat) :=
    if peekCap st.peeked < size then some ⟨List.replicate size 0, 0⟩ else st.peeked
  match pk0 with
  | none => (st, goCopy b [], 0)
  | some g =>
    let rd :=
      if g.len < size then
        let k := min (size - g.len) st.stream.length
        (GoSlice.mk (writeAt g.arr g.len (st.stream.take k)) g.len, st.stream.drop k)
      else (g, st.stream)
    (⟨rd.2, some rd.1⟩, goCopy b (rd.1.arr.take rd.1.len), rd.1.len)

/-- `peekConn.Read` (peek_conn.go lines 50-72).  Returns the new state,
the new contents of `b`, and the returned count `n + size`. -/
def readGo (st : PeekConnSt) (b : List Nat) : PeekConnSt × List Nat × Nat :=
  match st.peeked with
  | none =>
    let k := min b.length st.stream.length
    (⟨st.stream.drop k, none⟩, goCopy b (st.stream.take k), k)
  | some g =>
    let size := b.length
    let pr :=
      if g.len > size then
        ((g.arr.take g.len).take size, some (GoSlice.mk (g.arr.drop size) (g.len - size)))
      else (g.arr.take g.len, none)
    let b1 := goCopy b pr.1
    let sz := pr.1.length
    let k := min (b.length - sz) st.stream.length
    (⟨st.stream.drop k, pr.2⟩, writeAt b1 sz (st.stream.take k), k + sz)

/-- Run a `Peek` with a fresh buffer of capacity `pcap`, then a `Read`
with a fresh buffer of length `rlen`; return the bytes the read
delivered and the count the peek returned. -/
def peekThenRead (stream : List Nat) (pcap rlen : Nat) : List Nat × Nat :=
  let r1 := peekGo ⟨stream, none⟩ (List.replicate pcap 0) pcap
  let r2 := readGo r1.1 (List.replicate rlen 0)
  (r2.2.1.take r2.2.2, r1.2.2)

/-- The bytes a `Read` with a fresh buffer of length `rlen` delivers on a
connection that was never peeked. -/
def readNoPeek (stream : List Nat) (rlen : Nat) : List Nat :=
  let r := readGo ⟨stream, none⟩ (List.replicate rlen 0)
  r.2.1.take r.2.2

/-- Byte values of an ASCII string. -/
def bytesOf (s : String) : List Nat := s.toList.map Char.toNat

/-- The nine HTTP method tokens listed by the mux (tls_mux.go line 232). -/
def httpMethodTokens : List String :=
  ["GET", "POST", "PUT", "DELETE", "HEAD", "OPTIONS", "PATCH", "TRACE", "CONNECT"]

/-- Unanchored containment of `pat` in a byte list, as `regexp.Match`
performs for an unanchored literal branch. -/
def containsSeq (pat : List Nat) : List Nat → Bool
  | [] => pat.isEmpty
  | c :: t => pat.isPrefixOf (c :: t) || containsSeq pat t

/-- The Go regexp used by `WithHTTPMiddleware`:
`^(CONNECT)|(DELETE)|(GET)|(HEAD)|(OPTIONS)|(PATCH)|(POST)|(PUT)|(TRACE) `.
Alternation binds loosest, so the branches are `^(CONNECT)`, `(DELETE)`,
..., `(PUT)`, and `(TRACE) ` (only CONNECT is anchored and only TRACE
carries the trailing space); `regexp.Match` is an unanchored search. -/
def httpPeekMatch (data : List Nat) : Bool :=
  (bytesOf "CONNECT").isPrefixOf data ||
  containsSeq (bytesOf "DELETE") data || containsSeq (bytesOf "GET") data ||
  containsSeq (bytesOf "HEAD") data || containsSeq (bytesOf "OPTIONS") data ||
  containsSeq (bytesOf "PATCH") data || containsSeq (bytesOf "POST") data ||
  containsSeq (bytesOf "PUT") data || containsSeq (bytesOf "TRACE ") data

/-- The property the spec states: the peeked bytes begin with one of the
nine method tokens immediately followed by a space. -/
def specHTTPPrefix (data : List Nat) : Bool :=
  httpMethodTokens.any fun m => (bytesOf m ++ [32]).isPrefixOf data

/-- The peek-and-match loop of `WithPatternMiddleware` (tls_mux.go lines
244-286) with `timeout = 0` (one `Peek` per size, as installed by the
mux).  Arguments: the pattern, the remaining `peekSizes`, the current
`data` buffer contents and its capacity, and the connection state.
Returns whether `middle` was invoked (the connection was taken).

Faithful details: `data := make([]byte, 8)`, so each `conn.Peek(data[:size])`
passes a buffer of capacity 8; when `n < size` the middleware returns the
connection onward immediately (no later sizes are tried); the regexp is
matched against the whole `data` buffer. -/
def patternLoopGo (matchFn : List Nat → Bool) :
    List Nat → List Nat → Nat → PeekConnSt → Bool × PeekConnSt
  | [], _, _, st => (false, st)
  | size :: rest, data, dcap, st =>
    let dd := if dcap < size then (List.replicate size 0, size) else (data, dcap)
    let pk := peekGo st (dd.1.take size) dd.2
    let data2 := pk.2.1 ++ dd.1.drop size
    if pk.2.2 < size then (false, pk.1)
    else if matchFn data2 then (true, pk.1)
    else patternLoopGo matchFn rest data2 dd.2 pk.1

/-- Whether the HTTP classifier middleware installed by `tlsmux.New`
takes a connection in state `st` (sends it to the plaintext channel). -/
def httpMiddlewareTakes (st : PeekConnSt) : Bool :=
  (patternLoopGo httpPeekMatch [4, 5, 6, 7, 8] (List.replicate 8 0) 8 st).1

/-- The two listener channels of the mux (tls_mux.go lines 52-66). -/
inductive Chan where
  | tls
  | plain
deriving DecidableEq

/-- A listener middleware (mux_listener.go): takes a connection and
returns the connection to pass on (`none` when the middleware took the
connection) together with the channel sends it performed. -/
def Middleware (σ : Type) := σ → Option σ × List Chan

/-- The middleware loop of `listener.Accept` (mux_listener.go lines
46-56): apply each middleware in order and stop as soon as one of them
takes the connection (`conn == nil` breaks the loop). -/
def runMiddles {σ : Type} : List (Middleware σ) → σ → Option σ × List Chan
  | [], c => (some c, [])
  | m :: ms, c =>
    match m c with
    | (none, ev) => (none, ev)
    | (some c2, ev) =>
      let r := runMiddles ms c2
      (r.1, ev ++ r.2)

/-- A classifier middleware as installed by `tlsmux.New`: when its
pattern takes the connection it sends the connection to its channel and
returns nil, otherwise it passes the connection on unchanged. -/
def classifierMW {σ : Type} (takes : σ → Bool) (ch : Chan) : Middleware σ :=
  fun c => if takes c then (none, [ch]) else (some c, [])

/-- The transparent-fallback middleware of `tlsmux.New` (tls_mux.go lines
67-101): a proxied connection is taken (blind-forwarded by a spawned
goroutine, no channel send), any other connection is passed on. -/
def fallbackMW {σ : Type} (isProxied : σ → Bool) : Middleware σ :=
  fun c => if isProxied c then (none, []) else (some c, [])

/-- The middleware chain installed by `tlsmux.New` (tls_mux.go lines
57-102): TLS classifier, then HTTP classifier, then transparent
fallback.  The take-predicates are parameters so that the theorem covers
every peek behaviour, the real (buggy) one included. -/
def muxChain {σ : Type} (t h p : σ → Bool) : List (Middleware σ) :=
  [classifierMW t Chan.tls, classifierMW h Chan.plain, fallbackMW p]

/-- Shared close state of the two derived listeners: the `sync.Once`
guard (`done`) and the number of times the underlying listener's `Close`
ran. -/
structure CloseSt where
  done : Bool
  closes : Nat
deriving DecidableEq

/-- `tlsMuxListener.Close` (tls_mux.go lines 43-49): `c.close.Do`
invokes the underlying `Listener.Close` only the first time. -/
def onceDo (s : CloseSt) : CloseSt :=
  if s.done then s else ⟨true, s.closes + 1⟩

/-- The two derived listeners returned by `tlsmux.New`; the TLS one is
wrapped by `tls.NewListener`, whose `Close` delegates to the inner
`tlsMuxListener`.  Both share one `sync.Once` (tls_mux.go lines 124-141). -/
inductive Derived where
  | plainL
  | tlsL
deriving DecidableEq

/-- Closing either derived listener runs the shared once-guard. -/
def closeDerived (s : CloseSt) (_ : Derived) : CloseSt := onceDo s

end Tlsmux

namespace GrpcProxy

open GoModel

/-- The byte values Go's `validHeaderFieldByte` accepts besides letters
and digits. -/
def tokenExtraBytes : List Nat :=
  [33, 35, 36, 37, 38, 39, 42, 43, 45, 46, 94, 95, 96, 124, 126]

/-- Go `validHeaderFieldByte`. -/
def isTokenChar (c : Char) : Bool :=
  c.isAlpha || c.isDigit || tokenExtraBytes.contains c.toNat

/-- The case-folding walk of Go `textproto.CanonicalMIMEHeaderKey`:
uppercase the first letter and every letter following a dash, lowercase
the rest. -/
def canonChars : Bool → List Char → List Char
  | _, [] => []
  | up, c :: cs =>
    (if up then c.toUpper else c.toLower) :: canonChars (c = '-') cs

/-- Go `textproto.CanonicalMIMEHeaderKey`: keys containing an invalid
byte are returned unchanged. -/
def canonicalKey (s : String) : String :=
  if s.toList.all isTokenChar then String.mk (canonChars true s.toList) else s

/-- `http.Header` / `map[string][]string`, as an association list (Go
map iteration order is abstracted as the list order; a map never holds
two entries with the same key). -/
abbrev HeaderL : Type := List (String × List String)

/-- Map lookup by exact (already canonical) key; `[]` when absent. -/
def lookupKey (ck : String) : HeaderL → List String
  | [] => []
  | e :: t => if e.1 = ck then e.2 else lookupKey ck t

/-- Map delete by exact key. -/
def delKey (ck : String) : HeaderL → HeaderL
  | [] => []
  | e :: t => if e.1 = ck then delKey ck t else e :: delKey ck t

/-- Map assignment `h[ck] = vs` (replace in place, or append when new). -/
def setKey (ck : String) (vs : List String) : HeaderL → HeaderL
  | [] => [(ck, vs)]
  | e :: t => if e.1 = ck then (ck, vs) :: t else e :: setKey ck vs t

/-- `h[ck] = append(h[ck], v)`. -/
def addKey (ck v : String) : HeaderL → HeaderL
  | [] => [(ck, [v])]
  | e :: t => if e.1 = ck then (e.1, e.2 ++ [v]) :: t else e :: addKey ck v t

/-- `Header.Values` / `Header.Get`'s lookup under the canonical key. -/
def headerValues (h : HeaderL) (k : String) : List String :=
  lookupKey (canonicalKey k) h

/-- `Header.Del`. -/
def headerDel (h : HeaderL) (k : String) : HeaderL :=
  delKey (canonicalKey k) h

/-- `Header.Set`: `h[CanonicalMIMEHeaderKey(k)] = []string{v}`. -/
def headerSet (h : HeaderL) (k v : String) : HeaderL :=
  setKey (canonicalKey k) [v] h

/-- `Header.Add`: append `v` to the canonical key's value list. -/
def headerAdd (h : HeaderL) (k v : String) : HeaderL :=
  addKey (canonicalKey k) v h

/-- Hex digit value, as Go `unhex`. -/
def hexVal (c : Char) : Option Nat :=
  if c.isDigit then some (c.toNat - 48)
  else if 97 ≤ c.toNat ∧ c.toNat ≤ 102 then some (c.toNat - 97 + 10)
  else if 65 ≤ c.toNat ∧ c.toNat ≤ 70 then some (c.toNat - 65 + 10)
  else none

/-- Go `url.QueryUnescape`: decode every `%XX` escape, turn `+` into a
space, and fail (returning `none`) on a malformed escape. -/
def queryUnescape : List Char → Option (List Char)
  | [] => some []
  | '%' :: a :: b :: t =>
    match hexVal a, hexVal b with
    | some va, some vb =>
      match queryUnescape t with
      | some r => some (Char.ofNat (16 * va + vb) :: r)
      | none => none
    | _, _ => none
  | '%' :: _ => none
  | '+' :: t =>
    match queryUnescape t with
    | some r => some (' ' :: r)
    | none => none
  | c :: t =>
    match queryUnescape t with
    | some r => some (c :: r)
    | none => none

/-- `escaped, _ := url.QueryUnescape(s)`: the error is discarded, and Go
returns the empty string alongside an error. -/
def queryUnescapeOr (s : String) : String :=
  match queryUnescape s.toList with
  | some l => String.mk l
  | none => ""

/-- HAR name/value pair (har.go `HarNameValuePair`). -/
structure HarNameValuePair where
  name : String
  value : String
deriving DecidableEq, Inhabited

/-- `parseStringArrMap` (har.go lines 208-222): for every key of the
map, query-unescape the key and the comma-join of its values.  The Go
code fills an array of `len(map)` cells in map iteration order; the
association list's order stands for that iteration order. -/
def parseStringArrMap (m : List (String × List String)) : List HarNameValuePair :=
  m.map fun kv =>
    { name := queryUnescapeOr kv.1,
      value := queryUnescapeOr (String.intercalate "," kv.2) }

/-- The modelled fields of a HAR request (har.go `HarRequest`,
`parseRequest` lines 139-159); cookies, post data and sizes are not
needed by the claims. -/
structure HarRequestM where
  method : String
  url : String
  headers : List HarNameValuePair
  queryString : List HarNameValuePair
deriving DecidableEq, Inhabited

/-- The modelled fields of a HAR response (har.go `HarResponse`,
`parseResponse` lines 253-312); `parseResponse` reads the headers from a
clone taken before the CSP rewrite. -/
structure HarResponseM where
  status : Nat
  headers : List HarNameValuePair
deriving DecidableEq, Inhabited

/-- The modelled fields of a HAR entry (har.go `HarEntry`). -/
structure HarEntryM where
  request : HarRequestM
  response : Option HarResponseM
  serverIpAddress : String
deriving DecidableEq, Inhabited

/-- The in-memory entries slice of the HAR log. -/
abbrev EntriesVec : Type := GoModel.GoSlice HarEntryM

/-- `HarLog.addEntry` (har.go lines 68-82): when the new length exceeds
the capacity, allocate `(n+1)*2` zero entries and `copy` the old visible
entries in; then re-slice to length `n` and `copy` the new entries into
positions `m..n`. -/
def addEntry (har : EntriesVec) (entry : List HarEntryM) : EntriesVec :=
  let m := har.len
  let n := m + entry.length
  let entries :=
    if n > har.arr.length then
      GoModel.goCopy (List.replicate ((n + 1) * 2) default) har.view
    else har.arr
  ⟨GoModel.writeAt entries m entry, n⟩

/-- A parsed IP in the wire form `net.ParseIP` returns: a 16-byte slice
(IPv4 addresses appear in their 4-in-6 mapped form). -/
abbrev IPBytes : Type := List Nat

/-- The 16-byte form of an IPv4 address. -/
def v4Mapped (a b c d : Nat) : IPBytes :=
  [0, 0, 0, 0, 0, 0, 0, 0, 0, 0, 255, 255, a, b, c, d]

/-- Split a character list at every occurrence of `c` (the separators
are not kept; `n` separators give `n+1` parts). -/
def splitOnChar (c : Char) : List Char → List (List Char)
  | [] => [[]]
  | x :: t =>
    if x = c then [] :: splitOnChar c t
    else
      match splitOnChar c t with
      | h :: r => (x :: h) :: r
      | [] => [[x]]

/-- Split a character list at every (non-overlapping, leftmost)
occurrence of a double colon. -/
def splitDoubleColon : List Char → List (List Char)
  | [] => [[]]
  | ':' :: ':' :: t => [] :: splitDoubleColon t
  | x :: t =>
    match splitDoubleColon t with
    | h :: r => (x :: h) :: r
    | [] => [[x]]

/-- One dotted-quad field: 1-3 digits, value at most 255, no leading
zero (Go's `ParseIP` rejects leading zeros). -/
def parseV4Field (cs : List Char) : Option Nat :=
  if cs ≠ [] ∧ cs.length ≤ 3 ∧ cs.all Char.isDigit ∧ (cs.length = 1 ∨ cs.head? ≠ some '0') then
    let v := cs.foldl (fun a c => a * 10 + (c.toNat - 48)) 0
    if v ≤ 255 then some v else none
  else none

/-- Go `parseIPv4`: four dotted-quad fields. -/
def parseIPv4 (s : String) : Option IPBytes :=
  match (splitOnChar '.' s.toList).mapM parseV4Field with
  | some [a, b, c, d] => some (v4Mapped a b c d)
  | _ => none

/-- One IPv6 group: 1-4 hex digits. -/
def parseHexGroup (cs : List Char) : Option Nat :=
  if cs ≠ [] ∧ cs.length ≤ 4 ∧ cs.all (fun c => (hexVal c).isSome) then
    some (cs.foldl (fun a c => a * 16 + (hexVal c).getD 0) 0)
  else none

/-- Big-endian bytes of a list of 16-bit groups. -/
def groupBytes (gs : List Nat) : List Nat :=
  gs.foldr (fun g acc => g / 256 :: g % 256 :: acc) []

/-- Go `parseIPv6` on the colon-grammar: eight hex groups, or fewer with
one `::` gap.  (The embedded dotted-quad tail and zone suffixes of the
full grammar are outside the modelled inputs.) -/
def parseIPv6 (s : String) : Option IPBytes :=
  match splitDoubleColon s.toList with
  | [whole] =>
    match (splitOnChar ':' whole).mapM parseHexGroup with
    | some gs => if gs.length = 8 then some (groupBytes gs) else none
    | none => none
  | [l, r] =>
    let lg := if l = [] then [] else splitOnChar ':' l
    let rg := if r = [] then [] else splitOnChar ':' r
    match lg.mapM parseHexGroup, rg.mapM parseHexGroup with
    | some gl, some gr =>
      if gl.length + gr.length ≤ 7 then
        some (groupBytes gl ++ List.replicate ((8 - gl.length - gr.length) * 2) 0 ++ groupBytes gr)
      else none
    | _, _ => none
  | _ => none

/-- Go `net.ParseIP`. -/
def parseIP (s : String) : Option IPBytes :=
  match parseIPv4 s with
  | some ip => some ip
  | none => parseIPv6 s

/-- Go `IP.To4`: defined for the 4-in-6 mapped 16-byte form (and the
plain 4-byte form). -/
def ipTo4 (ip : IPBytes) : Option (List Nat) :=
  match ip with
  | [a, b, c, d] => some [a, b, c, d]
  | [0, 0, 0, 0, 0, 0, 0, 0, 0, 0, 255, 255, a, b, c, d] => some [a, b, c, d]
  | _ => none

/-- 16-bit groups of a 16-byte address. -/
def ipGroups : List Nat → List Nat
  | a :: b :: t => (a * 256 + b) :: ipGroups t
  | _ => []

/-- Go `IP.String`: dotted decimal for addresses with an IPv4 form; a
plain hex-group rendering otherwise (the code only ever renders
addresses with an IPv4 form, so the zero-run compression of the full
algorithm is not needed by any observed value). -/
def ipString (ip : IPBytes) : String :=
  match ipTo4 ip with
  | some [a, b, c, d] => s!"{a}.{b}.{c}.{d}"
  | _ => String.intercalate ":" ((ipGroups ip).map fun g => String.mk (Nat.toDigits 16 g))

/-- Go `string(ip)`: the raw bytes of the 16-byte slice as a string. -/
def rawIPString (ip : IPBytes) : String :=
  String.mk (ip.map Char.ofNat)

/-- Index of the last occurrence of a character. -/
def lastIdxOf (c : Char) (cs : List Char) : Option Nat :=
  ((cs.enum.filter fun p => p.2 = c).map fun p => p.1).getLast?

/-- Go `net.SplitHostPort`: split at the last colon; bracketed hosts
keep their inner text; a bare host containing further colons is an
error (`none`), as is a string with no colon at all. -/
def splitHostPort (s : String) : Option (String × String) :=
  let cs := s.toList
  match lastIdxOf ':' cs with
  | none => none
  | some i =>
    if cs.head? = some '[' then
      if 2 ≤ i ∧ (cs.drop (i - 1)).head? = some ']' then
        some (String.mk ((cs.drop 1).take (i - 2)), String.mk (cs.drop (i + 1)))
      else none
    else
      if (cs.take i).contains ':' then none
      else some (String.mk (cs.take i), String.mk (cs.drop (i + 1)))

/-- Lines 53-56 of http_transport.go: `net.SplitHostPort(req.URL.Host)`,
falling back to the whole host on error. -/
def hostOf (urlHost : String) : String :=
  match splitHostPort urlHost with
  | some hp => hp.1
  | none => urlHost

/-- DNS behaviour as an oracle: the answer of the system resolver for a
non-literal host name. -/
abbrev Resolver : Type := String → Except String (List IPBytes)

/-- Go `net.LookupIP`: a host that is an IP literal resolves to itself
without consulting DNS. -/
def lookupIP (resolver : Resolver) (host : String) : Except String (List IPBytes) :=
  match parseIP host with
  | some ip => Except.ok [ip]
  | none => resolver host

/-- `fillIpAddress` (http_transport.go lines 52-69): first, when the
host parses as an IP literal, store `string(ip)` — the raw bytes of the
16-byte address; then (unconditionally) look the host up, and the first
address with an IPv4 form overwrites the field with `ip.String()`. -/
def fillIpAddress (resolver : Resolver) (urlHost : String) : String :=
  let host := hostOf urlHost
  let s1 :=
    match parseIP host with
    | some ip => rawIPString ip
    | none => ""
  match lookupIP resolver host with
  | Except.ok ips =>
    match ips.find? (fun ip => (ipTo4 ip).isSome) with
    | some ip => ipString ip
    | none => s1
  | Except.error _ => s1

/-- Modelled from the spec (claim C7): prefer the URL's literal IP —
record the literal itself — and only otherwise resolve the host and
record the first IPv4 address of the resolution. -/
def specFillIpAddress (resolver : Resolver) (urlHost : String) : String :=
  let host := hostOf urlHost
  if (parseIP host).isSome then host
  else
    match resolver host with
    | Except.ok ips =>
      match ips.find? (fun ip => (ipTo4 ip).isSome) with
      | some ip => ipString ip
      | none => ""
    | Except.error _ => ""

/-- A resolver that fails every query (the concrete theorems never
depend on DNS answers for literal hosts). -/
def res0 : Resolver := fun _ => Except.error "lookup failed"

/-- The modelled fields of an `http.Request`: method, `req.URL.Host`,
`req.URL.String()`, the header map and `req.URL.Query()`. -/
structure RequestM where
  method : String
  urlHost : String
  url : String
  header : HeaderL
  query : List (String × List String)
deriving DecidableEq, Inhabited

/-- The modelled fields of an `http.Response`. -/
structure ResponseM where
  status : Nat
  header : HeaderL
deriving DecidableEq, Inhabited

/-- `parseRequest` (har.go lines 139-159), on the modelled fields. -/
def parseRequestM (req : RequestM) : HarRequestM :=
  { method := req.method
    url := req.url
    headers := parseStringArrMap req.header
    queryString := parseStringArrMap req.query }

/-- `parseResponse` (har.go lines 253-312), on the modelled fields; the
headers are read from the clone taken before the CSP rewrite. -/
def parseResponseM (resp : ResponseM) : HarResponseM :=
  { status := resp.status
    headers := parseStringArrMap resp.header }

/-- `HTTPTransport.create502Response` (http_transport.go lines 34-50). -/
def create502Response (e : String) : ResponseM :=
  { status := 502
    header := [("X-Request-Error", [e])] }

/-- A single-quote character, used inside the CSP policy string. -/
def sq : String := String.mk [Char.ofNat 39]

/-- The fully-permissive policy substituted by `RoundTrip`
(http_transport.go line 111). -/
def cspPolicy : String :=
  "default-src * blob: data: " ++ sq ++ "unsafe-inline" ++ sq ++ " " ++
    sq ++ "unsafe-eval" ++ sq ++ ";"

/-- `req.Header.Set("Accept-Encoding", "gzip, deflate")`
(http_transport.go line 74). -/
def aeForward (h : HeaderL) : HeaderL :=
  headerSet h "Accept-Encoding" "gzip, deflate"

/-- The four `Del` calls followed by the four `Add` calls of `RoundTrip`
(http_transport.go lines 105-117). -/
def cspRewrite (h : HeaderL) : HeaderL :=
  headerAdd (headerAdd (headerAdd (headerAdd
    (headerDel (headerDel (headerDel (headerDel h
      "Webkit-CSP") "Content-Security-Policy") "X-Webkit-CSP") "X-Content-Security-Policy")
    "Webkit-CSP" cspPolicy) "Content-Security-Policy" cspPolicy)
    "X-Webkit-CSP" cspPolicy) "X-Content-Security-Policy" cspPolicy

/-- The HAR entry `RoundTrip` appends on a successful upstream round
trip: request captured from the already-mutated request, response parsed
from the upstream response, server IP filled in by `fillIpAddress`. -/
def capturedEntry (req : RequestM) (resolver : Resolver) (resp : ResponseM) : HarEntryM :=
  { request := parseRequestM { req with header := aeForward req.header }
    response := some (parseResponseM resp)
    serverIpAddress := fillIpAddress resolver req.urlHost }

/-- The observable outcome of `HTTPTransport.RoundTrip`. -/
structure RTResult where
  resp : ResponseM
  err : Option String
  entries : EntriesVec
  forwardedHeader : HeaderL

/-- `HTTPTransport.RoundTrip` (http_transport.go lines 71-120).  The
upstream transport and the resolver are oracles; timings and the
on-disk HAR rewrite (pure I/O) are not modelled.  On a transport error
the synthesised 502 is returned with a nil error and nothing is
appended; on success the HAR entry is appended only when a HAR file is
configured, and the response headers get the CSP rewrite. -/
def roundTrip (harFile : String) (req : RequestM)
    (transport : HeaderL → Except String ResponseM)
    (resolver : Resolver) (har : EntriesVec) : RTResult :=
  let fwd := aeForward req.header
  match transport fwd with
  | Except.error e => ⟨create502Response e, none, har, fwd⟩
  | Except.ok resp =>
    let har2 := if harFile = "" then har else addEntry har [capturedEntry req resolver resp]
    ⟨⟨resp.status, cspRewrite resp.header⟩, none, har2, fwd⟩

/-- An upstream transport that always fails at the dial. -/
def errTransport : HeaderL → Except String ResponseM :=
  fun _ => Except.error "connection refused"

/-- A concrete request used by the witnesses. -/
def req0 : RequestM :=
  { method := "GET"
    urlHost := "upstream.test:80"
    url := "http://upstream.test/hello"
    header := [("Host", ["upstream.test"]), ("Accept-Encoding", ["br"])]
    query := [] }

/-- A concrete upstream response used by the witnesses. -/
def resp0 : ResponseM :=
  { status := 200
    header := [("Content-Type", ["text/html"]),
               ("Content-Security-Policy", ["default-src upstream.test"])] }

/-- An upstream transport that always answers `resp0`. -/
def okTransport : HeaderL → Except String ResponseM :=
  fun _ => Except.ok resp0

end GrpcProxy

namespace Tlsmux

open GoModel

/-- C1: the peek idempotence / no-byte-loss invariant fails on the code.
On the connection whose stream is `[1, 2, 3]`, a `Peek` with a one-byte
buffer returns 0 bytes (instead of 1), and the subsequent `Read` with a
three-byte buffer delivers `[2, 3]`: byte `1` was consumed from the
socket into the peek buffer's backing array (whose slice length never
grows) and is lost.  Without the peek the same read delivers `[1, 2, 3]`. -/
theorem c1_peek_loses_bytes :
    (peekThenRead [1, 2, 3] 1 3).2 = 0 ∧
    (peekThenRead [1, 2, 3] 1 3).1 = [2, 3] ∧
    readNoPeek [1, 2, 3] 3 = [1, 2, 3] := by decide

/-- C4: the HTTP classifier is not exact, in both directions.  The
pattern accepts the 8-byte prefix `xxGETxxx`, which does not begin with a
method token followed by a space (the regexp anchors only `CONNECT` and
requires the space only after `TRACE`).  Conversely a connection whose
stream begins with `GET / HTTP/1.1` is never sent to the plaintext
channel, because `peekConn.Peek` always reports 0 bytes, so the
middleware gives up with `n < size` at the first peek size. -/
theorem c4_http_classifier_bug :
    httpPeekMatch (bytesOf "xxGETxxx") = true ∧
    specHTTPPrefix (bytesOf "xxGETxxx") = false ∧
    specHTTPPrefix (bytesOf "GET / HT") = true ∧
    httpMiddlewareTakes ⟨bytesOf "GET / HTTP/1.1", none⟩ = false := by decide

/-- C5: classifier disjointness.  For every connection, running the mux
middleware chain performs at most one channel send: the events are
`[]`, `[tls]` or `[plain]`, never both channels — a middleware that
takes a connection (returns nil) stops the chain. -/
theorem c5_classifier_disjoint {σ : Type} (t h p : σ → Bool) (c : σ) :
    (runMiddles (muxChain t h p) c).2 = [] ∨
    (runMiddles (muxChain t h p) c).2 = [Chan.tls] ∨
    (runMiddles (muxChain t h p) c).2 = [Chan.plain] := by
  cases ht : t c <;> cases hh : h c <;> cases hp : p c <;>
    simp [muxChain, runMiddles, classifierMW, fallbackMW, ht, hh, hp]

theorem closeDerived_fixed (calls : List Derived) (s : CloseSt) (hs : s.done = true) :
    calls.foldl closeDerived s = s := by
  induction calls with
  | nil => rfl
  | cons c cs ih =>
    have : closeDerived s c = s := by simp [closeDerived, onceDo, hs]
    simp [List.foldl_cons, this, ih]

/-- C8: idempotent close.  Whatever nonempty sequence of `Close` calls is
made on the two derived listeners, in any order, the underlying
listener's `Close` is invoked exactly once. -/
theorem c8_close_once (calls : List Derived) (h : calls ≠ []) :
    (calls.foldl closeDerived ⟨false, 0⟩).closes = 1 := by
  cases calls with
  | nil => exact absurd rfl h
  | cons c cs =>
    have h1 : closeDerived ⟨false, 0⟩ c = ⟨true, 1⟩ := by simp [closeDerived, onceDo]
    rw [List.foldl_cons, h1, closeDerived_fixed cs ⟨true, 1⟩ rfl]

/-- Witness for C8 at a concrete call sequence. -/
theorem c8_close_once_witness :
    (([Derived.plainL, Derived.tlsL, Derived.plainL]).foldl closeDerived ⟨false, 0⟩).closes = 1 :=
  c8_close_once [Derived.plainL, Derived.tlsL, Derived.plainL] (by decide)

end Tlsmux

namespace GrpcProxy

open GoModel

theorem lookupKey_delKey_self (ck : String) (h : HeaderL) :
    lookupKey ck (delKey ck h) = [] := by
  induction h with
  | nil => rfl
  | cons e t ih =>
    by_cases he : e.1 = ck <;> simp [delKey, lookupKey, he, ih]

theorem lookupKey_delKey_other (ck q : String) (h : HeaderL) (hq : q ≠ ck) :
    lookupKey q (delKey ck h) = lookupKey q h := by
  have hq2 : ck ≠ q := Ne.symm hq
  induction h with
  | nil => rfl
  | cons e t ih =>
    by_cases he : e.1 = ck
    · have hne : ¬(e.1 = q) := by rw [he]; exact hq2
      simp [delKey, lookupKey, he, hne, hq, hq2, ih]
    · by_cases heq : e.1 = q <;> simp [delKey, lookupKey, he, heq, hq, hq2, ih]

theorem lookupKey_setKey_self (ck : String) (vs : List String) (h : HeaderL) :
    lookupKey ck (setKey ck vs h) = vs := by
  induction h with
  | nil => simp [setKey, lookupKey]
  | cons e t ih =>
    by_cases he : e.1 = ck <;> simp [setKey, lookupKey, he, ih]

theorem lookupKey_setKey_other (ck q : String) (vs : List String) (h : HeaderL)
    (hq : q ≠ ck) : lookupKey q (setKey ck vs h) = lookupKey q h := by
  have hq2 : ck ≠ q := Ne.symm hq
  induction h with
  | nil => simp [setKey, lookupKey, hq2]
  | cons e t ih =>
    by_cases he : e.1 = ck
    · have hne : ¬(e.1 = q) := by rw [he]; exact hq2
      simp [setKey, lookupKey, he, hne, hq, hq2]
    · by_cases heq : e.1 = q <;> simp [setKey, lookupKey, he, heq, hq, hq2, ih]

theorem lookupKey_addKey_self (ck v : String) (h : HeaderL) :
    lookupKey ck (addKey ck v h) = lookupKey ck h ++ [v] := by
  induction h with
  | nil => simp [addKey, lookupKey]
  | cons e t ih =>
    by_cases he : e.1 = ck <;> simp [addKey, lookupKey, he, ih]

theorem lookupKey_addKey_other (ck q v : String) (h : HeaderL) (hq : q ≠ ck) :
    lookupKey q (addKey ck v h) = lookupKey q h := by
  have hq2 : ck ≠ q := Ne.symm hq
  induction h with
  | nil => simp [addKey, lookupKey, hq2]
  | cons e t ih =>
    by_cases he : e.1 = ck
    · have hne : ¬(e.1 = q) := by rw [he]; exact hq2
      simp [addKey, lookupKey, he, hne, hq, hq2]
    · by_cases heq : e.1 = q <;> simp [addKey, lookupKey, he, heq, hq, hq2, ih]

theorem goCopy_of_le {α : Type} (dst src : List α) (h : src.length ≤ dst.length) :
    GoModel.goCopy dst src = src ++ dst.drop src.length := by
  simp [GoModel.goCopy, Nat.min_eq_right h]

theorem addEntry_view (har : EntriesVec) (entry : List HarEntryM)
    (hv : har.len ≤ har.arr.length) :
    (addEntry har entry).view = har.view ++ entry := by
  have hm : (har.arr.take har.len).length = har.len := by
    rw [List.length_take]
    omega
  simp only [addEntry, GoModel.GoSlice.view, GoModel.writeAt]
  by_cases hc : har.len + entry.length > har.arr.length
  · rw [if_pos hc]
    rw [goCopy_of_le _ _ (by rw [List.length_replicate, hm]; omega)]
    rw [List.take_left' hm]
    exact List.take_left' (by rw [List.length_append, hm])
  · rw [if_neg hc]
    exact List.take_left' (by rw [List.length_append, hm])

/-- C7 counterexample: for the literal IPv6 host `::1` the code records
the raw 16-byte string of the parsed address (bytes 0..0,1), not the
literal text `::1` the claim requires. -/
theorem c7_counterexample :
    fillIpAddress res0 "::1" ≠ specFillIpAddress res0 "::1" := by decide

/-- C7 amended: the host is looked up even when it is an IP literal (the
lookup of a literal returns the literal itself).  A literal with an IPv4
form is therefore recorded as its dotted-decimal text via the lookup
overwrite; a literal without an IPv4 form keeps the raw 16-byte string
stored by the first branch; only a non-literal host behaves as the claim
states. -/
theorem c7_amended (resolver : Resolver) (urlHost : String) :
    fillIpAddress resolver urlHost =
      match parseIP (hostOf urlHost) with
      | some ip =>
        (match ipTo4 ip with
         | some _ => ipString ip
         | none => rawIPString ip)
      | none => specFillIpAddress resolver urlHost := by
  unfold fillIpAddress specFillIpAddress lookupIP
  cases hp : parseIP (hostOf urlHost) with
  | some ip =>
    simp only [hp, List.find?]
    cases h4 : ipTo4 ip with
    | some q => simp [h4]
    | none => simp [h4, List.find?]
  | none =>
    simp only [hp]
    cases hr : resolver (hostOf urlHost) with
    | ok ips => simp
    | error e => simp

theorem canon_ae : canonicalKey "Accept-Encoding" = "Accept-Encoding" := by decide

theorem canon_xre : canonicalKey "X-Request-Error" = "X-Request-Error" := by decide

theorem canon_wcsp : canonicalKey "Webkit-CSP" = "Webkit-Csp" := by decide

theorem canon_csp : canonicalKey "Content-Security-Policy" = "Content-Security-Policy" := by
  decide

theorem canon_xwcsp : canonicalKey "X-Webkit-CSP" = "X-Webkit-Csp" := by decide

theorem canon_xcsp :
    canonicalKey "X-Content-Security-Policy" = "X-Content-Security-Policy" := by decide

theorem roundTrip_forwardedHeader (harFile : String) (req : RequestM)
    (transport : HeaderL → Except String ResponseM) (resolver : Resolver) (har : EntriesVec) :
    (roundTrip harFile req transport resolver har).forwardedHeader = aeForward req.header := by
  cases ht : transport (aeForward req.header) <;> simp [roundTrip, ht]

/-- C9: the forwarded request carries exactly `gzip, deflate` as its
Accept-Encoding header, overwriting whatever the client sent, and every
other header key is forwarded unchanged. -/
theorem c9_accept_encoding_overwrite (harFile : String) (req : RequestM)
    (transport : HeaderL → Except String ResponseM) (resolver : Resolver) (har : EntriesVec) :
    headerValues (roundTrip harFile req transport resolver har).forwardedHeader
        "Accept-Encoding" = ["gzip, deflate"] ∧
    ∀ k : String, canonicalKey k ≠ "Accept-Encoding" →
      headerValues (roundTrip harFile req transport resolver har).forwardedHeader k =
        headerValues req.header k := by
  rw [roundTrip_forwardedHeader]
  constructor
  · unfold aeForward headerSet headerValues
    rw [canon_ae]
    exact lookupKey_setKey_self _ _ _
  · intro k hk
    unfold aeForward headerSet headerValues
    rw [canon_ae]
    exact lookupKey_setKey_other _ _ _ _ hk

/-- Witness for C9 at a concrete request. -/
theorem c9_accept_encoding_overwrite_witness :
    headerValues (roundTrip "" req0 errTransport res0 ⟨[], 0⟩).forwardedHeader
        "Accept-Encoding" = ["gzip, deflate"] ∧
    headerValues (roundTrip "" req0 errTransport res0 ⟨[], 0⟩).forwardedHeader "Host" =
      headerValues req0.header "Host" :=
  ⟨(c9_accept_encoding_overwrite "" req0 errTransport res0 ⟨[], 0⟩).1,
   (c9_accept_encoding_overwrite "" req0 errTransport res0 ⟨[], 0⟩).2 "Host" (by decide)⟩

/-- C3: on a transport error the round-tripper returns a 502 response
whose X-Request-Error header carries the error string, and reports no
error to its caller. -/
theorem c3_502_synthesis (harFile : String) (req : RequestM)
    (transport : HeaderL → Except String ResponseM) (resolver : Resolver)
    (har : EntriesVec) (e : String)
    (he : transport (aeForward req.header) = Except.error e) :
    (roundTrip harFile req transport resolver har).resp.status = 502 ∧
    headerValues (roundTrip harFile req transport resolver har).resp.header
        "X-Request-Error" = [e] ∧
    (roundTrip harFile req transport resolver har).err = none := by
  have hr : roundTrip harFile req transport resolver har =
      ⟨create502Response e, none, har, aeForward req.header⟩ := by
    simp only [roundTrip, he]
  rw [hr]
  refine ⟨rfl, ?_, rfl⟩
  unfold create502Response headerValues
  rw [canon_xre]
  simp [lookupKey]

/-- Witness for C3 at a concrete failing upstream. -/
theorem c3_502_synthesis_witness :
    (roundTrip "out.har" req0 errTransport res0 ⟨[], 0⟩).resp.status = 502 ∧
    headerValues (roundTrip "out.har" req0 errTransport res0 ⟨[], 0⟩).resp.header
        "X-Request-Error" = ["connection refused"] ∧
    (roundTrip "out.har" req0 errTransport res0 ⟨[], 0⟩).err = none :=
  c3_502_synthesis "out.har" req0 errTransport res0 ⟨[], 0⟩ "connection refused" rfl

theorem cspRewrite_wcsp (h : HeaderL) :
    lookupKey "Webkit-Csp" (cspRewrite h) = [cspPolicy] := by
  unfold cspRewrite headerAdd headerDel
  rw [canon_wcsp, canon_csp, canon_xwcsp, canon_xcsp]
  rw [lookupKey_addKey_other _ _ _ _ (by decide),
      lookupKey_addKey_other _ _ _ _ (by decide),
      lookupKey_addKey_other _ _ _ _ (by decide),
      lookupKey_addKey_self,
      lookupKey_delKey_other _ _ _ (by decide),
      lookupKey_delKey_other _ _ _ (by decide),
      lookupKey_delKey_other _ _ _ (by decide),
      lookupKey_delKey_self]
  rfl

theorem cspRewrite_csp (h : HeaderL) :
    lookupKey "Content-Security-Policy" (cspRewrite h) = [cspPolicy] := by
  unfold cspRewrite headerAdd headerDel
  rw [canon_wcsp, canon_csp, canon_xwcsp, canon_xcsp]
  rw [lookupKey_addKey_other _ _ _ _ (by decide),
      lookupKey_addKey_other _ _ _ _ (by decide),
      lookupKey_addKey_self,
      lookupKey_addKey_other _ _ _ _ (by decide),
      lookupKey_delKey_other _ _ _ (by decide),
      lookupKey_delKey_other _ _ _ (by decide),
      lookupKey_delKey_self]
  rfl

theorem cspRewrite_xwcsp (h : HeaderL) :
    lookupKey "X-Webkit-Csp" (cspRewrite h) = [cspPolicy] := by
  unfold cspRewrite headerAdd headerDel
  rw [canon_wcsp, canon_csp, canon_xwcsp, canon_xcsp]
  rw [lookupKey_addKey_other _ _ _ _ (by decide),
      lookupKey_addKey_self,
      lookupKey_addKey_other _ _ _ _ (by decide),
      lookupKey_addKey_other _ _ _ _ (by decide),
      lookupKey_delKey_other _ _ _ (by decide),
      lookupKey_delKey_self]
  rfl

theorem cspRewrite_xcsp (h : HeaderL) :
    lookupKey "X-Content-Security-Policy" (cspRewrite h) = [cspPolicy] := by
  unfold cspRewrite headerAdd headerDel
  rw [canon_wcsp, canon_csp, canon_xwcsp, canon_xcsp]
  rw [lookupKey_addKey_self,
      lookupKey_addKey_other _ _ _ _ (by decide),
      lookupKey_addKey_other _ _ _ _ (by decide),
      lookupKey_addKey_other _ _ _ _ (by decide),
      lookupKey_delKey_self]
  rfl

/-- C6: after a successful upstream round trip all four CSP header forms
of the returned response carry exactly the fully-permissive policy. -/
theorem c6_csp_replacement (harFile : String) (req : RequestM)
    (transport : HeaderL → Except String ResponseM) (resolver : Resolver)
    (har : EntriesVec) (resp : ResponseM)
    (hok : transport (aeForward req.header) = Except.ok resp) :
    headerValues (roundTrip harFile req transport resolver har).resp.header
        "Content-Security-Policy" = [cspPolicy] ∧
    headerValues (roundTrip harFile req transport resolver har).resp.header
        "X-Content-Security-Policy" = [cspPolicy] ∧
    headerValues (roundTrip harFile req transport resolver har).resp.header
        "Webkit-CSP" = [cspPolicy] ∧
    headerValues (roundTrip harFile req transport resolver har).resp.header
        "X-Webkit-CSP" = [cspPolicy] := by
  simp only [roundTrip, hok]
  refine ⟨?_, ?_, ?_, ?_⟩
  · unfold headerValues
    rw [canon_csp]
    exact cspRewrite_csp _
  · unfold headerValues
    rw [canon_xcsp]
    exact cspRewrite_xcsp _
  · unfold headerValues
    rw [canon_wcsp]
    exact cspRewrite_wcsp _
  · unfold headerValues
    rw [canon_xwcsp]
    exact cspRewrite_xwcsp _

/-- Witness for C6 at a concrete upstream response that carries a
restrictive CSP header. -/
theorem c6_csp_replacement_witness :
    headerValues (roundTrip "out.har" req0 okTransport res0 ⟨[], 0⟩).resp.header
        "Content-Security-Policy" = [cspPolicy] ∧
    headerValues (roundTrip "out.har" req0 okTransport res0 ⟨[], 0⟩).resp.header
        "X-Content-Security-Policy" = [cspPolicy] ∧
    headerValues (roundTrip "out.har" req0 okTransport res0 ⟨[], 0⟩).resp.header
        "Webkit-CSP" = [cspPolicy] ∧
    headerValues (roundTrip "out.har" req0 okTransport res0 ⟨[], 0⟩).resp.header
        "X-Webkit-CSP" = [cspPolicy] :=
  c6_csp_replacement "out.har" req0 okTransport res0 ⟨[], 0⟩ resp0 rfl

/-- C2 counterexample: a request whose upstream round trip fails (and
whose proxy has a HAR file configured) appends no HAR entry at all — the
502 path returns before `addEntry` — refuting "exactly one entry per
request regardless of 502 synthesis". -/
theorem c2_counterexample :
    ((roundTrip "out.har" req0 errTransport res0 ⟨[], 0⟩).entries.view).length ≠ 1 := by
  decide

/-- C2 amended: exactly one HAR entry — the captured one — is appended
when a HAR file is configured and the upstream round trip succeeds; on a
transport error, or when no HAR file is configured, no entry is
appended. -/
theorem c2_har_append (harFile : String) (req : RequestM)
    (transport : HeaderL → Except String ResponseM) (resolver : Resolver)
    (har : EntriesVec) (hv : har.len ≤ har.arr.length) :
    (roundTrip harFile req transport resolver har).entries.view =
      har.view ++
        (match transport (aeForward req.header) with
         | Except.error _ => []
         | Except.ok resp =>
           if harFile = "" then [] else [capturedEntry req resolver resp]) := by
  unfold roundTrip
  cases ht : transport (aeForward req.header) with
  | error e => simp [ht]
  | ok resp =>
    by_cases hf : harFile = "" <;> simp [ht, hf, addEntry_view _ _ hv]

/-- Witness for C2 (amended) at a concrete successful round trip with a
HAR file configured: exactly the captured entry is appended. -/
theorem c2_har_append_witness :
    (roundTrip "out.har" req0 okTransport res0 ⟨[], 0⟩).entries.view =
      [capturedEntry req0 res0 resp0] := by
  have h := c2_har_append "out.har" req0 okTransport res0 ⟨[], 0⟩ (by decide)
  rw [h]
  decide

/-- C10: HAR header and query-string capture stores the query-unescape
of each wire value (names unescaped, multiple values joined with commas
before unescaping), not the wire value itself; `parseRequest` applies
this to both the header map and the URL query. -/
theorem c10_har_unescape :
    (∀ (m : List (String × List String)) (i : Nat) (h : i < m.length),
      (parseStringArrMap m)[i]? =
        some ⟨queryUnescapeOr (m.get ⟨i, h⟩).1,
              queryUnescapeOr (String.intercalate "," (m.get ⟨i, h⟩).2)⟩) ∧
    (∀ req : RequestM,
      (parseRequestM req).headers = parseStringArrMap req.header ∧
      (parseRequestM req).queryString = parseStringArrMap req.query) ∧
    parseStringArrMap [("a%41+b", ["x%2Cy", "z"])] = [⟨"aA b", "x,y,z"⟩] := by
  refine ⟨?_, fun req => ⟨rfl, rfl⟩, by decide⟩
  intro m i h
  unfold parseStringArrMap
  rw [List.getElem?_map, List.getElem?_eq_getElem h]
  rfl

/-- Witness for C10 at a concrete one-entry map. -/
theorem c10_har_unescape_witness :
    (parseStringArrMap [("Host%3A", ["upstream.test", "b+c"])])[0]? =
      some ⟨"Host:", "upstream.test,b c"⟩ := by
  have h := c10_har_unescape.1 [("Host%3A", ["upstream.test", "b+c"])] 0 (by decide)
  rw [h]
  decide

end GrpcProxy
